import Mathlib

/-!
Verification of the `dnsoverstream` Go package (DNS over TCP/TLS/QUIC).

We shallowly embed the code of the repository:

* `dnscodec.Query` (the external codec's query record, of which the code
  touches the fields `MaxSize`, `Flags`, `ID`) becomes the structure `Query`;
  machine integers become `Nat` (the code only ORs flag bits and assigns
  constants, so no wrap-around can occur);
* the three per-protocol `MutateQuery` methods (`tcp.go`, `tls.go`,
  `quic.go`) become pure functions `Query → Query`;
* `newStreamMsgFrame` becomes a function returning `Option`, where `none`
  models the `runtimex.Assert` panic;
* `io.ReadFull` over a `bufio.Reader` wrapping the stream becomes `readFull`
  over a list of byte chunks (one chunk per underlying `Read` call);
* `Transport.Exchange` becomes `dnsExchange`, threading an explicit heap of
  queries (Go mutates queries through pointers, so the clone-before-mutate
  behaviour is only visible with an explicit store) and emitting a trace of
  I/O events so that ordering properties can be stated;
* the QUIC connection adapter's `sync.Once`-guarded close becomes a state
  machine counting invocations of the underlying `CloseWithError`.
-/

/-- Model of the external `dnscodec.Query` record. The code reads and writes
`MaxSize`, `Flags` and `ID`; `Name` and `QType` stand for the remaining
fields (domain name, record type), which the code never touches. -/
structure Query where
  Name : String
  QType : Nat
  Flags : Nat
  ID : Nat
  MaxSize : Nat
deriving DecidableEq, Repr, Inhabited

/-- Models the external constant `dnscodec.QueryFlagBlockLengthPadding`
(a single flag bit). -/
def QueryFlagBlockLengthPadding : Nat := 1

/-- Models the external constant `dnscodec.QueryFlagDNSSec`
(a single flag bit, distinct from the padding bit). -/
def QueryFlagDNSSec : Nat := 2

/-- Models the external constant `dnscodec.QueryMaxResponseSizeTCP`
(the TCP maximum response size). -/
def QueryMaxResponseSizeTCP : Nat := 65535

/-- `tcpStreamConn.MutateQuery` from `tcp.go`:
`msg.MaxSize = dnscodec.QueryMaxResponseSizeTCP`. -/
def tcpMutateQuery (msg : Query) : Query :=
  { msg with MaxSize := QueryMaxResponseSizeTCP }

/-- `tlsStreamConn.MutateQuery` from `tls.go`:
`msg.Flags |= dnscodec.QueryFlagBlockLengthPadding | dnscodec.QueryFlagDNSSec;`
`msg.MaxSize = dnscodec.QueryMaxResponseSizeTCP`. -/
def tlsMutateQuery (msg : Query) : Query :=
  { msg with
      Flags := msg.Flags ||| (QueryFlagBlockLengthPadding ||| QueryFlagDNSSec)
      MaxSize := QueryMaxResponseSizeTCP }

/-- `quicConnAdapter.MutateQuery` from `quic.go`:
`msg.Flags |= dnscodec.QueryFlagBlockLengthPadding | dnscodec.QueryFlagDNSSec;`
`msg.ID = 0; msg.MaxSize = dnscodec.QueryMaxResponseSizeTCP`. -/
def quicMutateQuery (msg : Query) : Query :=
  { msg with
      Flags := msg.Flags ||| (QueryFlagBlockLengthPadding ||| QueryFlagDNSSec)
      ID := 0
      MaxSize := QueryMaxResponseSizeTCP }

/-- `newStreamMsgFrame` from the transport file: asserts
`len(rawMsg) <= math.MaxUint16` (modelled by returning `none` on the panic),
then builds `[byte(len>>8), byte(len)] ++ rawMsg`. Bytes are `Nat`s below
256; `byte(x)` is `x % 256`. -/
def newStreamMsgFrame (rawMsg : List Nat) : Option (List Nat) :=
  if rawMsg.length ≤ 65535 then
    some ((rawMsg.length >>> 8) % 256 :: rawMsg.length % 256 :: rawMsg)
  else
    none

/-- Model of `io.ReadFull` over a `bufio.Reader` wrapping the stream. The
stream is a list of chunks, one chunk per underlying `Read` call (a server
may deliver the frame in arbitrarily small pieces). `readFull n chunks`
collects exactly `n` bytes, retrying across short reads and buffering the
unconsumed remainder of the current chunk; it returns `none` when the
stream is exhausted first (`io.ErrUnexpectedEOF`), never a partial result. -/
def readFull : Nat → List (List Nat) → Option (List Nat × List (List Nat))
  | 0, chunks => some ([], chunks)
  | _ + 1, [] => none
  | n + 1, c :: rest =>
    if n + 1 ≤ c.length then
      some (c.take (n + 1), c.drop (n + 1) :: rest)
    else
      match readFull (n + 1 - c.length) rest with
      | none => none
      | some (got, rem) => some (c ++ got, rem)

/-- I/O events of one exchange, in order of occurrence: the dial, the
stream open, the optional deadline propagation, the framed query write,
a stream (half-)close, reads of `n` bytes, and the connection close
performed by the cancellation watcher when the exchange finishes. -/
inductive Ev where
  | dial
  | openStream
  | setDeadline
  | writeFrame
  | closeStream
  | readBytes (n : Nat)
  | closeConn
deriving DecidableEq, Repr

/-- The environment of one `Exchange` call: outcomes of the dial, stream
open and write, the response chunks the stream delivers, and the external
codec (`query.NewMsg`, `msg.Pack`, `dns.Msg.Unpack`, `dnscodec.ParseResponse`)
as abstract functions over abstract message/response/error types. -/
structure Env (Msg Resp Err : Type) where
  dialOk : Bool
  openOk : Bool
  hasDeadline : Bool
  newMsg : Query → Option Msg
  pack : Msg → Option (List Nat)
  writeOk : Bool
  chunks : List (List Nat)
  unpack : List Nat → Option Msg
  parseResponse : Msg → Msg → Except Err Resp

/-- Errors `Exchange` can return: one constructor per failing step of the
source, plus `codec e` for an error value returned verbatim by the external
`dnscodec.ParseResponse` (such as its invalid-response error). -/
inductive XErr (Err : Type) where
  | dialFailed
  | openFailed
  | newMsgFailed
  | packFailed
  | assertFailed
  | writeFailed
  | readFailed
  | unpackFailed
  | codec (e : Err)
deriving DecidableEq, Repr

/-- Result of one exchange: the returned value or error, the final query
heap, and the ordered trace of I/O events. -/
structure XOut (Msg Resp Err : Type) where
  result : Except (XErr Err) Resp
  heap : List Query
  trace : List Ev

/-- `Transport.Exchange` from the transport file, embedded with an explicit
heap of queries (Go mutates queries through pointers; the caller's query is
the cell at index `qp`) and an event trace. Step numbering follows the
source: (1) dial; (2) cancellation watcher that closes the connection when
the exchange finishes, giving the trailing `closeConn` events; (3) open the
stream, with `defer stream.Close()`; (4) deadline propagation; (5) clone
the caller's query into a fresh cell and mutate the clone in place via the
dialer's `MutateQuery`, then `query.NewMsg()` and `queryMsg.Pack()`;
(6) `newStreamMsgFrame`; (7) write the frame; (8) `stream.Close()` before
reading (half-close); (9) read the 2-byte header, compute
`int(header[0])<<8 | int(header[1])`, read that many payload bytes;
(10) unpack and `dnscodec.ParseResponse(queryMsg, respMsg)`. -/
def dnsExchange {Msg Resp Err : Type} (env : Env Msg Resp Err)
    (mutate : Query → Query) (heap : List Query) (qp : Nat) :
    XOut Msg Resp Err :=
  if env.dialOk then
    if env.openOk then
      let tr0 : List Ev :=
        .dial :: .openStream :: (if env.hasDeadline then [.setDeadline] else [])
      let exitTr : List Ev := [.closeStream, .closeConn]
      let qc := heap.length
      let heap1 := heap ++ [heap.getD qp default]
      let heap2 := heap1.set qc (mutate (heap1.getD qc default))
      match env.newMsg (heap2.getD qc default) with
      | none =>
        { result := .error .newMsgFailed, heap := heap2, trace := tr0 ++ exitTr }
      | some queryMsg =>
        match env.pack queryMsg with
        | none =>
          { result := .error .packFailed, heap := heap2, trace := tr0 ++ exitTr }
        | some rawQuery =>
          match newStreamMsgFrame rawQuery with
          | none =>
            { result := .error .assertFailed, heap := heap2, trace := tr0 ++ exitTr }
          | some _rawQueryFrame =>
            if env.writeOk then
              match readFull 2 env.chunks with
              | none =>
                { result := .error .readFailed, heap := heap2,
                  trace := tr0 ++ [.writeFrame, .closeStream, .readBytes 2] ++ exitTr }
              | some (header, rest) =>
                let length := (header.getD 0 0) <<< 8 ||| header.getD 1 0
                match readFull length rest with
                | none =>
                  { result := .error .readFailed, heap := heap2,
                    trace := tr0 ++ [.writeFrame, .closeStream,
                      .readBytes 2, .readBytes length] ++ exitTr }
                | some (rawResp, _) =>
                  match env.unpack rawResp with
                  | none =>
                    { result := .error .unpackFailed, heap := heap2,
                      trace := tr0 ++ [.writeFrame, .closeStream,
                        .readBytes 2, .readBytes length] ++ exitTr }
                  | some respMsg =>
                    match env.parseResponse queryMsg respMsg with
                    | .error e =>
                      { result := .error (.codec e), heap := heap2,
                        trace := tr0 ++ [.writeFrame, .closeStream,
                          .readBytes 2, .readBytes length] ++ exitTr }
                    | .ok resp =>
                      { result := .ok resp, heap := heap2,
                        trace := tr0 ++ [.writeFrame, .closeStream,
                          .readBytes 2, .readBytes length] ++ exitTr }
            else
              { result := .error .writeFailed, heap := heap2,
                trace := tr0 ++ [.writeFrame] ++ exitTr }
    else
      { result := .error .openFailed, heap := heap,
        trace := [.dial, .openStream, .closeConn] }
  else
    { result := .error .dialFailed, heap := heap, trace := [.dial] }

/-- Recognizes the read events of a trace. -/
def isRead : Ev → Bool
  | .readBytes _ => true
  | _ => false

/-- State of a `quicConnAdapter`: whether its `sync.Once` has fired, and
how many times the underlying `qconn.CloseWithError` has been invoked. -/
structure QuicConnState where
  onceDone : Bool
  closeCalls : Nat
deriving DecidableEq, Repr

/-- A freshly dialed adapter (`&quicConnAdapter{conn, sync.Once{}}`): the
once is untriggered and the underlying close has never run. -/
def quicConnInit : QuicConnState :=
  { onceDone := false, closeCalls := 0 }

/-- The once-guarded close of `quicConnAdapter` (`Close` in `quic.go`; the
transport file's `CloseWithError` has the same once-guarded body):
`q.once.Do(func() { err = q.qconn.CloseWithError(0, "") })`. Inside the
once the underlying close runs — modelled by bumping `closeCalls` and
returning `underlying`, the underlying close's error. When the once has
already fired, `err` keeps its zero value `nil` (`none`). -/
def quicConnClose (underlying : Option Nat) (st : QuicConnState) :
    QuicConnState × Option Nat :=
  if st.onceDone then
    (st, none)
  else
    ({ onceDone := true, closeCalls := st.closeCalls + 1 }, underlying)

/-- `n` successive calls of the connection-close path (for example the
cancellation watcher and the normal-completion path), returning the final
state and the error each caller observed, in order. -/
def quicConnCloseSeq (underlying : Option Nat) :
    Nat → QuicConnState → QuicConnState × List (Option Nat)
  | 0, st => (st, [])
  | n + 1, st =>
    let step := quicConnClose underlying st
    let restOut := quicConnCloseSeq underlying n step.1
    (restOut.1, step.2 :: restOut.2)

/-- A concrete caller query for witnesses. -/
def sampleQuery : Query :=
  { Name := "example.com", QType := 1, Flags := 0, ID := 12345, MaxSize := 512 }

/-- A concrete fully successful environment for witnesses. The stream
delivers the response frame one byte per chunk: header `[0, 2]` announcing
2 payload bytes, payload `[9, 8]`, one extra byte `5` beyond the frame. -/
def sampleEnv : Env Nat Nat Nat :=
  { dialOk := true
    openOk := true
    hasDeadline := false
    newMsg := fun _ => some 7
    pack := fun _ => some [1, 2, 3]
    writeOk := true
    chunks := [[0], [2], [9], [8], [5]]
    unpack := fun _ => some 42
    parseResponse := fun qm rm => .ok (qm + rm) }

/-- A mutation that sets a tiny maximum response size, to witness that the
read path ignores the advertised maximum. -/
def sampleSmallMutate : Query → Query :=
  fun q => { q with MaxSize := 1 }

/-- ORing the two flag-bit constants into any flag word sets the padding bit. -/
lemma flags_or_and_pad (f : Nat) :
    (f ||| (QueryFlagBlockLengthPadding ||| QueryFlagDNSSec)) &&&
      QueryFlagBlockLengthPadding = QueryFlagBlockLengthPadding := by
  simp only [QueryFlagBlockLengthPadding, QueryFlagDNSSec]
  have h := Nat.and_two_pow (f ||| (1 ||| 2)) 0
  rw [pow_zero] at h
  have hb : Nat.testBit (1 ||| 2) 0 = true := by decide
  rw [h, Nat.testBit_or, hb, Bool.or_true]
  simp

/-- ORing the two flag-bit constants into any flag word sets the DNSSEC bit. -/
lemma flags_or_and_dnssec (f : Nat) :
    (f ||| (QueryFlagBlockLengthPadding ||| QueryFlagDNSSec)) &&&
      QueryFlagDNSSec = QueryFlagDNSSec := by
  simp only [QueryFlagBlockLengthPadding, QueryFlagDNSSec]
  have h := Nat.and_two_pow (f ||| (1 ||| 2)) 1
  rw [pow_one] at h
  have hb : Nat.testBit (1 ||| 2) 1 = true := by decide
  rw [h, Nat.testBit_or, hb, Bool.or_true]
  simp

/-- C2: the per-protocol `MutateQuery` implementations set exactly the fields
in the spec's table. TCP sets `MaxSize` to the TCP maximum and leaves flags
and ID alone; TLS additionally ORs in the padding and DNSSEC flag bits (so
both bits are set afterwards) and leaves the ID alone; QUIC does what TLS
does and also forces the ID to 0. No other field (`Name`, `QType`) is
touched by any of the three. -/
theorem mutateQuery_table (q : Query) :
    ((tcpMutateQuery q).MaxSize = QueryMaxResponseSizeTCP ∧
     (tcpMutateQuery q).Flags = q.Flags ∧
     (tcpMutateQuery q).ID = q.ID ∧
     (tcpMutateQuery q).Name = q.Name ∧
     (tcpMutateQuery q).QType = q.QType) ∧
    ((tlsMutateQuery q).MaxSize = QueryMaxResponseSizeTCP ∧
     (tlsMutateQuery q).Flags
        = q.Flags ||| (QueryFlagBlockLengthPadding ||| QueryFlagDNSSec) ∧
     (tlsMutateQuery q).Flags &&& QueryFlagBlockLengthPadding
        = QueryFlagBlockLengthPadding ∧
     (tlsMutateQuery q).Flags &&& QueryFlagDNSSec = QueryFlagDNSSec ∧
     (tlsMutateQuery q).ID = q.ID ∧
     (tlsMutateQuery q).Name = q.Name ∧
     (tlsMutateQuery q).QType = q.QType) ∧
    ((quicMutateQuery q).MaxSize = QueryMaxResponseSizeTCP ∧
     (quicMutateQuery q).Flags
        = q.Flags ||| (QueryFlagBlockLengthPadding ||| QueryFlagDNSSec) ∧
     (quicMutateQuery q).Flags &&& QueryFlagBlockLengthPadding
        = QueryFlagBlockLengthPadding ∧
     (quicMutateQuery q).Flags &&& QueryFlagDNSSec = QueryFlagDNSSec ∧
     (quicMutateQuery q).ID = 0 ∧
     (quicMutateQuery q).Name = q.Name ∧
     (quicMutateQuery q).QType = q.QType) := by
  refine ⟨⟨rfl, rfl, rfl, rfl, rfl⟩,
          ⟨rfl, rfl, ?_, ?_, rfl, rfl, rfl⟩,
          ⟨rfl, rfl, ?_, ?_, rfl, rfl, rfl⟩⟩
  · simp only [tlsMutateQuery]
    exact flags_or_and_pad q.Flags
  · simp only [tlsMutateQuery]
    exact flags_or_and_dnssec q.Flags
  · simp only [quicMutateQuery]
    exact flags_or_and_pad q.Flags
  · simp only [quicMutateQuery]
    exact flags_or_and_dnssec q.Flags

/-- C10: each protocol's `MutateQuery` is idempotent — applying it twice
yields the same query as applying it once (flags are OR-ed in, `MaxSize` and
`ID` are overwritten with constants). -/
theorem mutateQuery_idempotent (q : Query) :
    tcpMutateQuery (tcpMutateQuery q) = tcpMutateQuery q ∧
    tlsMutateQuery (tlsMutateQuery q) = tlsMutateQuery q ∧
    quicMutateQuery (quicMutateQuery q) = quicMutateQuery q := by
  refine ⟨rfl, ?_, ?_⟩ <;>
    simp [tlsMutateQuery, quicMutateQuery, Nat.or_assoc]

/-- C3: framing a packed message of length at most 65535 succeeds and
produces a buffer two bytes longer whose first two bytes, read big-endian,
equal the buffer length minus 2, and whose remainder is exactly the message
(dropping the 2-byte length prefix recovers the message). -/
theorem frame_roundtrip (rawMsg : List Nat) (h : rawMsg.length ≤ 65535) :
    ∃ frame, newStreamMsgFrame rawMsg = some frame ∧
      frame.length = rawMsg.length + 2 ∧
      (frame.getD 0 0) * 256 + frame.getD 1 0 = frame.length - 2 ∧
      frame.drop 2 = rawMsg := by
  use (rawMsg.length >>> 8) % 256 :: rawMsg.length % 256 :: rawMsg
  refine ⟨?_, ?_, ?_, ?_⟩
  · simp [newStreamMsgFrame, h]
  · simp
  · have hs : rawMsg.length >>> 8 = rawMsg.length / 256 := by
      rw [Nat.shiftRight_eq_div_pow]
    simp only [List.getD_cons_zero, List.getD_cons_succ, List.length_cons, hs]
    omega
  · simp

/-- Closed witness for `frame_roundtrip` at the message `[7, 8, 9]`. -/
theorem frame_roundtrip_witness :
    ∃ frame, newStreamMsgFrame [7, 8, 9] = some frame ∧
      frame.length = 3 + 2 ∧
      (frame.getD 0 0) * 256 + frame.getD 1 0 = frame.length - 2 ∧
      frame.drop 2 = [7, 8, 9] :=
  frame_roundtrip [7, 8, 9] (by decide)

/-- C9: the framing function treats over-long messages as a programming
error. Its assertion (modelled by the `none` branch) never fires when the
packed message is at most 65535 bytes — in that case it returns a frame and
a nil error — and it fires (a panic, not a recoverable error) exactly when
the message exceeds 65535 bytes. -/
theorem frame_assert (rawMsg : List Nat) :
    (rawMsg.length ≤ 65535 → ∃ frame, newStreamMsgFrame rawMsg = some frame) ∧
    (65535 < rawMsg.length → newStreamMsgFrame rawMsg = none) := by
  constructor
  · intro h
    refine ⟨(rawMsg.length >>> 8) % 256 :: rawMsg.length % 256 :: rawMsg, ?_⟩
    simp [newStreamMsgFrame, h]
  · intro h
    simp [newStreamMsgFrame, Nat.not_le.mpr h]

/-- Closed witness for `frame_assert`: a 3-byte message is framed without
firing the assertion, and a 65536-byte message fires it. -/
theorem frame_assert_witness :
    (∃ frame, newStreamMsgFrame [7, 8, 9] = some frame) ∧
    newStreamMsgFrame (List.replicate 65536 0) = none :=
  ⟨(frame_assert [7, 8, 9]).1 (by decide),
   (frame_assert (List.replicate 65536 0)).2
     (by rw [List.length_replicate]; omega)⟩

/-- When the chunks hold at least `n` bytes in total, `readFull` returns
exactly the first `n` bytes of their concatenation, and the unread
remainder concatenates to the rest. -/
lemma readFull_spec (n : Nat) (chunks : List (List Nat))
    (h : n ≤ chunks.flatten.length) :
    ∃ rem, readFull n chunks = some (chunks.flatten.take n, rem) ∧
      rem.flatten = chunks.flatten.drop n := by
  induction chunks generalizing n with
  | nil =>
    simp only [List.flatten_nil, List.length_nil, Nat.le_zero] at h
    subst h
    exact ⟨[], by simp [readFull], by simp⟩
  | cons c rest ih =>
    match n with
    | 0 => exact ⟨c :: rest, by simp [readFull], by simp⟩
    | n + 1 =>
      by_cases hc : n + 1 ≤ c.length
      · refine ⟨c.drop (n + 1) :: rest, ?_, ?_⟩
        · simp only [readFull, if_pos hc, List.flatten_cons,
            List.take_append_of_le_length hc]
        · simp only [List.flatten_cons,
            List.drop_append_of_le_length hc]
      · have hsplit : n + 1 = c.length + (n + 1 - c.length) := by omega
        have h' : n + 1 - c.length ≤ rest.flatten.length := by
          simp only [List.flatten_cons, List.length_append] at h
          omega
        obtain ⟨rem, hr, hrem⟩ := ih (n + 1 - c.length) h'
        refine ⟨rem, ?_, ?_⟩
        · simp only [readFull, if_neg hc, hr, List.flatten_cons]
          rw [hsplit, List.take_append]
          simp
        · rw [List.flatten_cons, hsplit, List.drop_append]
          exact hrem

/-- When the chunks hold fewer than `n` bytes in total, `readFull` fails:
a partial frame is never returned as success. -/
lemma readFull_short (n : Nat) (chunks : List (List Nat))
    (h : chunks.flatten.length < n) : readFull n chunks = none := by
  induction chunks generalizing n with
  | nil =>
    match n with
    | n + 1 => simp [readFull]
  | cons c rest ih =>
    match n with
    | n + 1 =>
      have hlen : c.length + rest.flatten.length < n + 1 := by
        simpa using h
      have hc : ¬ (n + 1 ≤ c.length) := by omega
      have h' : rest.flatten.length < n + 1 - c.length := by omega
      simp [readFull, if_neg hc, ih _ h']

/-- Reading back the clone cell yields the value just written to it. -/
lemma heap_clone_read (heap : List Query) (o m : Query) (d : Query) :
    (((heap ++ [o]).set heap.length m).getD heap.length d) = m := by
  rw [List.getD_eq_getElem?_getD, List.getElem?_set_self (by simp)]
  rfl

/-- Writing the clone cell does not change any cell of the original heap. -/
lemma heap_clone_read_orig (heap : List Query) (o m : Query) (d : Query)
    (qp : Nat) (hqp : qp < heap.length) :
    (((heap ++ [o]).set heap.length m).getD qp d) = heap.getD qp d := by
  rw [List.getD_eq_getElem?_getD, List.getElem?_set_ne (by omega),
    List.getElem?_append_left hqp, List.getD_eq_getElem?_getD]

/-- Reading the freshly allocated clone cell yields the cloned value. -/
lemma heap_append_read (heap : List Query) (o d : Query) :
    (heap ++ [o]).getD heap.length d = o := by
  rw [List.getD_eq_getElem?_getD, List.getElem?_append]
  simp

/-- Shifting left by `k` bits and ORing in a `k`-bit value is the same as
multiply-and-add: this is how the code's big-endian decode
`int(header[0])<<8 | int(header[1])` relates to `256 * h0 + h1`. -/
lemma shiftLeft_lor_eq_add (a : Nat) : ∀ (k b : Nat), b < 2 ^ k →
    a <<< k ||| b = 2 ^ k * a + b := by
  intro k
  induction k with
  | zero =>
    intro b hb
    interval_cases b
    simp
  | succ k ih =>
    intro b hb
    conv_lhs => rw [← Nat.bit_decomp b]
    have h1 : a <<< (k + 1) = Nat.bit false (a <<< k) := by
      simp only [Nat.shiftLeft_eq, Nat.bit, pow_succ, cond_false]
      ring
    rw [h1, Nat.lor_bit]
    have hb2 : b.div2 < 2 ^ k := by
      rw [Nat.div2_val]
      rw [pow_succ] at hb
      omega
    rw [ih _ hb2]
    have hdec := Nat.bodd_add_div2 b
    have hpow : 2 ^ (k + 1) * a = 2 * (2 ^ k * a) := by ring
    cases hbo : b.bodd <;>
      simp only [hbo, cond_true, cond_false, Bool.false_or, Nat.bit,
        Bool.toNat_false, Bool.toNat_true] at hdec ⊢ <;>
      omega

/-- When dial, open, codec and write succeed and the stream delivers a
header `[h0, h1]` announcing exactly `body.length` bytes followed by
`body` (and possibly further bytes), `Exchange` decodes exactly `body`:
its result is whatever unpacking and validating `body` yields. -/
lemma exchange_decode_result {Msg Resp Err : Type} (env : Env Msg Resp Err)
    (mutate : Query → Query) (heap : List Query) (qp : Nat)
    (qm : Msg) (raw : List Nat) (body extra : List Nat) (h0 h1 : Nat)
    (hd : env.dialOk = true) (ho : env.openOk = true)
    (hm : env.newMsg (mutate (heap.getD qp default)) = some qm)
    (hp : env.pack qm = some raw)
    (hl : raw.length ≤ 65535)
    (hw : env.writeOk = true)
    (hc : env.chunks.flatten = h0 :: h1 :: (body ++ extra))
    (hh1 : h1 < 256)
    (hlen : body.length = 256 * h0 + h1) :
    (dnsExchange env mutate heap qp).result =
      match env.unpack body with
      | none => .error .unpackFailed
      | some respMsg =>
        match env.parseResponse qm respMsg with
        | .error e => .error (.codec e)
        | .ok resp => .ok resp := by
  have hf : newStreamMsgFrame raw
      = some ((raw.length >>> 8) % 256 :: raw.length % 256 :: raw) := by
    simp [newStreamMsgFrame, hl]
  have h2le : 2 ≤ env.chunks.flatten.length := by
    rw [hc]
    simp
  obtain ⟨rem, hr2, hrem⟩ := readFull_spec 2 env.chunks h2le
  rw [hc] at hr2 hrem
  simp only [List.take_succ_cons, List.take_zero, List.drop_succ_cons,
    List.drop_zero] at hr2 hrem
  have hble : body.length ≤ rem.flatten.length := by
    rw [hrem]
    simp
  obtain ⟨rem2, hr3, hrem3⟩ := readFull_spec body.length rem hble
  rw [hrem, List.take_left] at hr3
  have hlor : h0 <<< 8 ||| h1 = body.length := by
    rw [shiftLeft_lor_eq_add h0 8 h1 (by simpa using hh1)]
    omega
  simp only [dnsExchange, hd, ho, hw, if_true, heap_append_read,
    heap_clone_read, hm, hp, hf, hr2, List.getD_cons_zero,
    List.getD_cons_succ, hlor, hr3]
  cases hu : env.unpack body with
  | none => rfl
  | some respMsg =>
    cases hpr : env.parseResponse qm respMsg <;> simp [hpr]

/-- C4: the read path of `Exchange` reads exactly 2 length-prefix bytes,
interprets them big-endian, then reads exactly that many payload bytes.
First conjunct: for every chunking of the stream (arbitrarily small
pieces), when the announced length is available the reassembled payload
passed to the decoder is exactly the frame body. Second and third
conjuncts: a stream that ends before the 2 header bytes, or before the
announced payload length, makes `Exchange` fail — a partial frame is never
returned as success. -/
theorem exchange_read_exact {Msg Resp Err : Type} (env : Env Msg Resp Err)
    (mutate : Query → Query) (heap : List Query) (qp : Nat)
    (qm : Msg) (raw : List Nat)
    (hd : env.dialOk = true) (ho : env.openOk = true)
    (hm : env.newMsg (mutate (heap.getD qp default)) = some qm)
    (hp : env.pack qm = some raw)
    (hl : raw.length ≤ 65535)
    (hw : env.writeOk = true) :
    (∀ body extra h0 h1,
      env.chunks.flatten = h0 :: h1 :: (body ++ extra) →
      h0 < 256 → h1 < 256 → body.length = 256 * h0 + h1 →
      (dnsExchange env mutate heap qp).result =
        match env.unpack body with
        | none => .error .unpackFailed
        | some respMsg =>
          match env.parseResponse qm respMsg with
          | .error e => .error (.codec e)
          | .ok resp => .ok resp) ∧
    (env.chunks.flatten.length < 2 →
      (dnsExchange env mutate heap qp).result = .error .readFailed) ∧
    (∀ h0 h1 rest,
      env.chunks.flatten = h0 :: h1 :: rest →
      rest.length < (h0 <<< 8 ||| h1) →
      (dnsExchange env mutate heap qp).result = .error .readFailed) := by
  have hf : newStreamMsgFrame raw
      = some ((raw.length >>> 8) % 256 :: raw.length % 256 :: raw) := by
    simp [newStreamMsgFrame, hl]
  refine ⟨?_, ?_, ?_⟩
  · intro body extra h0 h1 hc _hh0 hh1 hlen
    exact exchange_decode_result env mutate heap qp qm raw body extra h0 h1
      hd ho hm hp hl hw hc hh1 hlen
  · intro hshort
    have hrn : readFull 2 env.chunks = none := readFull_short 2 env.chunks hshort
    simp only [dnsExchange, hd, ho, hw, if_true, heap_append_read,
      heap_clone_read, hm, hp, hf, hrn]
  · intro h0 h1 rest hc hshort
    have h2le : 2 ≤ env.chunks.flatten.length := by
      rw [hc]
      simp
    obtain ⟨rem, hr2, hrem⟩ := readFull_spec 2 env.chunks h2le
    rw [hc] at hr2 hrem
    simp only [List.take_succ_cons, List.take_zero, List.drop_succ_cons,
      List.drop_zero] at hr2 hrem
    have hrn : readFull (h0 <<< 8 ||| h1) rem = none := by
      apply readFull_short
      rw [hrem]
      exact hshort
    simp only [dnsExchange, hd, ho, hw, if_true, heap_append_read,
      heap_clone_read, hm, hp, hf, hr2, List.getD_cons_zero,
      List.getD_cons_succ, hrn]

/-- C6: once the response bytes `body` are read, (i) if they fail to parse
`Exchange` returns an error; (ii) if they parse but `dnscodec.ParseResponse`
rejects them as not matching the query of this exchange (for example a
REFUSED or forged reply), `Exchange` returns that distinct codec error —
never a transport-error constructor and never success; (iii) a successful
return implies the decoded message was validated by `ParseResponse` against
the query message of this exchange. -/
theorem exchange_validates_response {Msg Resp Err : Type}
    (env : Env Msg Resp Err) (mutate : Query → Query) (heap : List Query)
    (qp : Nat) (qm : Msg) (raw : List Nat) (body extra : List Nat)
    (h0 h1 : Nat)
    (hd : env.dialOk = true) (ho : env.openOk = true)
    (hm : env.newMsg (mutate (heap.getD qp default)) = some qm)
    (hp : env.pack qm = some raw)
    (hl : raw.length ≤ 65535)
    (hw : env.writeOk = true)
    (hc : env.chunks.flatten = h0 :: h1 :: (body ++ extra))
    (hh1 : h1 < 256)
    (hlen : body.length = 256 * h0 + h1) :
    (env.unpack body = none →
      (dnsExchange env mutate heap qp).result = .error .unpackFailed) ∧
    (∀ respMsg e, env.unpack body = some respMsg →
      env.parseResponse qm respMsg = .error e →
      (dnsExchange env mutate heap qp).result = .error (.codec e)) ∧
    (∀ resp, (dnsExchange env mutate heap qp).result = .ok resp →
      ∃ respMsg, env.unpack body = some respMsg ∧
        env.parseResponse qm respMsg = .ok resp) := by
  have hres := exchange_decode_result env mutate heap qp qm raw body extra
    h0 h1 hd ho hm hp hl hw hc hh1 hlen
  refine ⟨?_, ?_, ?_⟩
  · intro hu
    rw [hres, hu]
  · intro respMsg e hu hpr
    rw [hres, hu]
    simp [hpr]
  · intro resp hok
    rw [hres] at hok
    cases hu : env.unpack body with
    | none =>
      rw [hu] at hok
      exact absurd hok (by simp)
    | some respMsg =>
      rw [hu] at hok
      cases hpr : env.parseResponse qm respMsg with
      | error e =>
        simp [hpr] at hok
      | ok r =>
        simp [hpr] at hok
        exact ⟨respMsg, rfl, by rw [hpr, hok]⟩

/-- C8: the read path enforces nothing about the mutated query's `MaxSize`:
even when the announced response length strictly exceeds it, `Exchange`
reads the full payload and returns the decoded response successfully. The
`hmax` hypothesis is deliberately unused by the proof — that is the
documented non-enforcement. -/
theorem exchange_ignores_maxsize {Msg Resp Err : Type}
    (env : Env Msg Resp Err) (mutate : Query → Query) (heap : List Query)
    (qp : Nat) (qm respMsg : Msg) (raw : List Nat) (body extra : List Nat)
    (h0 h1 : Nat) (resp : Resp)
    (hd : env.dialOk = true) (ho : env.openOk = true)
    (hm : env.newMsg (mutate (heap.getD qp default)) = some qm)
    (hp : env.pack qm = some raw)
    (hl : raw.length ≤ 65535)
    (hw : env.writeOk = true)
    (hc : env.chunks.flatten = h0 :: h1 :: (body ++ extra))
    (hh1 : h1 < 256)
    (hlen : body.length = 256 * h0 + h1)
    (hmax : (mutate (heap.getD qp default)).MaxSize < 256 * h0 + h1)
    (hu : env.unpack body = some respMsg)
    (hpr : env.parseResponse qm respMsg = .ok resp) :
    (dnsExchange env mutate heap qp).result = .ok resp := by
  rw [exchange_decode_result env mutate heap qp qm raw body extra h0 h1
    hd ho hm hp hl hw hc hh1 hlen, hu]
  simp [hpr]

/-- Every trace of `Exchange` either contains no read at all, or splits as
the pre-write events (dial, stream open, optional deadline) followed
immediately by the write and then the stream close, with everything else —
in particular every read — after that close. -/
lemma exchange_trace_shape {Msg Resp Err : Type} (env : Env Msg Resp Err)
    (mutate : Query → Query) (heap : List Query) (qp : Nat) :
    (∀ e ∈ (dnsExchange env mutate heap qp).trace, isRead e = false) ∨
    ∃ post, (dnsExchange env mutate heap qp).trace
      = (Ev.dial :: Ev.openStream ::
          (if env.hasDeadline = true then [Ev.setDeadline] else []))
        ++ Ev.writeFrame :: Ev.closeStream :: post := by
  cases hd : env.dialOk with
  | false =>
    left
    intro e he
    simp only [dnsExchange, hd, Bool.false_eq_true, if_false,
      List.mem_singleton] at he
    subst he
    rfl
  | true =>
  cases ho : env.openOk with
  | false =>
    left
    intro e he
    simp only [dnsExchange, hd, ho, Bool.false_eq_true, if_true, if_false,
      List.mem_cons, List.not_mem_nil, or_false] at he
    rcases he with rfl | rfl | rfl <;> rfl
  | true =>
  cases hm : env.newMsg (mutate (heap.getD qp default)) with
  | none =>
    left
    intro e he
    simp only [dnsExchange, hd, ho, if_true, heap_append_read,
      heap_clone_read, hm] at he
    cases hdl : env.hasDeadline <;>
      simp only [hdl, Bool.false_eq_true, if_true, if_false,
        List.append_nil, List.cons_append, List.nil_append, List.mem_cons,
        List.not_mem_nil, or_false] at he <;>
      rcases he with rfl | rfl | rfl | rfl | rfl <;> rfl
  | some qm =>
  cases hp : env.pack qm with
  | none =>
    left
    intro e he
    simp only [dnsExchange, hd, ho, if_true, heap_append_read,
      heap_clone_read, hm, hp] at he
    cases hdl : env.hasDeadline <;>
      simp only [hdl, Bool.false_eq_true, if_true, if_false,
        List.append_nil, List.cons_append, List.nil_append, List.mem_cons,
        List.not_mem_nil, or_false] at he <;>
      rcases he with rfl | rfl | rfl | rfl | rfl <;> rfl
  | some rawQuery =>
  cases hfr : newStreamMsgFrame rawQuery with
  | none =>
    left
    intro e he
    simp only [dnsExchange, hd, ho, if_true, heap_append_read,
      heap_clone_read, hm, hp, hfr] at he
    cases hdl : env.hasDeadline <;>
      simp only [hdl, Bool.false_eq_true, if_true, if_false,
        List.append_nil, List.cons_append, List.nil_append, List.mem_cons,
        List.not_mem_nil, or_false] at he <;>
      rcases he with rfl | rfl | rfl | rfl | rfl <;> rfl
  | some frame =>
  cases hw : env.writeOk with
  | false =>
    right
    refine ⟨[Ev.closeConn], ?_⟩
    simp only [dnsExchange, hd, ho, if_true, heap_append_read,
      heap_clone_read, hm, hp, hfr, hw, Bool.false_eq_true, if_false]
    simp
  | true =>
  cases hr2 : readFull 2 env.chunks with
  | none =>
    right
    refine ⟨[Ev.readBytes 2, Ev.closeStream, Ev.closeConn], ?_⟩
    simp only [dnsExchange, hd, ho, if_true, heap_append_read,
      heap_clone_read, hm, hp, hfr, hw, hr2]
    simp
  | some pr =>
  obtain ⟨header, rest⟩ := pr
  cases hr3 : readFull ((header.getD 0 0) <<< 8 ||| header.getD 1 0) rest with
  | none =>
    right
    refine ⟨[Ev.readBytes 2,
      Ev.readBytes ((header.getD 0 0) <<< 8 ||| header.getD 1 0),
      Ev.closeStream, Ev.closeConn], ?_⟩
    simp only [dnsExchange, hd, ho, if_true, heap_append_read,
      heap_clone_read, hm, hp, hfr, hw, hr2, hr3]
    simp
  | some pr2 =>
  obtain ⟨rawResp, rem2⟩ := pr2
  cases hu : env.unpack rawResp with
  | none =>
    right
    refine ⟨[Ev.readBytes 2,
      Ev.readBytes ((header.getD 0 0) <<< 8 ||| header.getD 1 0),
      Ev.closeStream, Ev.closeConn], ?_⟩
    simp only [dnsExchange, hd, ho, if_true, heap_append_read,
      heap_clone_read, hm, hp, hfr, hw, hr2, hr3, hu]
    simp
  | some respMsg =>
  cases hpr : env.parseResponse qm respMsg with
  | error e =>
    right
    refine ⟨[Ev.readBytes 2,
      Ev.readBytes ((header.getD 0 0) <<< 8 ||| header.getD 1 0),
      Ev.closeStream, Ev.closeConn], ?_⟩
    simp only [dnsExchange, hd, ho, if_true, heap_append_read,
      heap_clone_read, hm, hp, hfr, hw, hr2, hr3, hu, hpr]
    simp
  | ok resp =>
    right
    refine ⟨[Ev.readBytes 2,
      Ev.readBytes ((header.getD 0 0) <<< 8 ||| header.getD 1 0),
      Ev.closeStream, Ev.closeConn], ?_⟩
    simp only [dnsExchange, hd, ho, if_true, heap_append_read,
      heap_clone_read, hm, hp, hfr, hw, hr2, hr3, hu, hpr]
    simp

/-- C5: in every exchange whose trace contains a read at all, the trace
splits as read-free preliminaries, then the query-frame write immediately
followed by the stream close (the half-close; a no-op `Close` for TCP/TLS,
a real stream close for QUIC), and only after that close any read of the
response. So the half-close happens directly after the write completes and
strictly before the first read, on every exit path. -/
theorem half_close_before_first_read {Msg Resp Err : Type}
    (env : Env Msg Resp Err) (mutate : Query → Query) (heap : List Query)
    (qp : Nat)
    (hr : ∃ e ∈ (dnsExchange env mutate heap qp).trace, isRead e = true) :
    ∃ pre post,
      (dnsExchange env mutate heap qp).trace
        = pre ++ Ev.writeFrame :: Ev.closeStream :: post ∧
      ∀ e ∈ pre, isRead e = false := by
  rcases exchange_trace_shape env mutate heap qp with hnone | ⟨post, hsh⟩
  · obtain ⟨e, he, hre⟩ := hr
    rw [hnone e he] at hre
    cases hre
  · refine ⟨_, post, hsh, ?_⟩
    intro e he
    cases hdl : env.hasDeadline <;>
      simp only [hdl, Bool.false_eq_true, if_true, if_false,
        List.mem_cons, List.not_mem_nil, or_false] at he
    · rcases he with rfl | rfl <;> rfl
    · rcases he with rfl | rfl | rfl <;> rfl

/-- C1: on every exit path of `Exchange` — dial error, open error, codec
errors, assertion, write error, read errors, decode errors, and success —
the caller's query cell is unchanged when `Exchange` returns: `Exchange`
clones the query and all mutation (for any protocol `MutateQuery`,
covering TCP, TLS and QUIC) happens on the clone cell only. -/
theorem exchange_preserves_caller_query {Msg Resp Err : Type}
    (env : Env Msg Resp Err) (mutate : Query → Query) (heap : List Query)
    (qp : Nat) (hqp : qp < heap.length) :
    (dnsExchange env mutate heap qp).heap.getD qp default
      = heap.getD qp default := by
  simp only [dnsExchange]
  repeat' split
  all_goals
    first
      | rfl
      | exact heap_clone_read_orig heap _ _ default qp hqp

/-- Once the once has fired, further close calls change nothing and every
caller observes a `nil` error. -/
lemma quicCloseSeq_done (underlying : Option Nat) (n : Nat)
    (st : QuicConnState) (h : st.onceDone = true) :
    quicConnCloseSeq underlying n st = (st, List.replicate n none) := by
  induction n with
  | zero => simp [quicConnCloseSeq]
  | succ n ih => simp [quicConnCloseSeq, quicConnClose, h, ih,
      List.replicate_succ]

/-- C7: starting from a fresh QUIC connection adapter, any sequence of one
or more calls to the connection-close path invokes the underlying
`CloseWithError` exactly once — on the first call — and, when the
underlying close succeeds (returns `nil`), every caller observes a `nil`
error. -/
theorem quic_close_once (n : Nat) (hn : 1 ≤ n) :
    (quicConnCloseSeq none n quicConnInit).1.closeCalls = 1 ∧
    ∀ r ∈ (quicConnCloseSeq none n quicConnInit).2, r = none := by
  obtain ⟨m, rfl⟩ : ∃ m, n = m + 1 := ⟨n - 1, by omega⟩
  have hstep : quicConnClose none quicConnInit
      = ({ onceDone := true, closeCalls := 1 }, none) := by
    simp [quicConnClose, quicConnInit]
  have hrest := quicCloseSeq_done none m
    { onceDone := true, closeCalls := 1 } rfl
  constructor
  · simp [quicConnCloseSeq, hstep, hrest]
  · intro r hr
    simp only [quicConnCloseSeq, hstep, hrest, List.mem_cons] at hr
    rcases hr with rfl | hr
    · rfl
    · exact List.eq_of_mem_replicate hr

/-- Closed witness for `quic_close_once`: two racing close calls (watcher
and normal completion) perform the underlying close once, both see `nil`. -/
theorem quic_close_once_witness :
    (quicConnCloseSeq none 2 quicConnInit).1.closeCalls = 1 ∧
    ∀ r ∈ (quicConnCloseSeq none 2 quicConnInit).2, r = none :=
  quic_close_once 2 (by decide)

/-- Closed witness for `exchange_preserves_caller_query`, with the TCP
protocol mutation. -/
theorem exchange_preserves_caller_query_witness :
    (dnsExchange sampleEnv tcpMutateQuery [sampleQuery] 0).heap.getD 0 default
      = [sampleQuery].getD 0 default :=
  exchange_preserves_caller_query sampleEnv tcpMutateQuery [sampleQuery] 0
    (by decide)

/-- Closed witness for `exchange_read_exact`: the frame body `[9, 8]`,
delivered one byte at a time, is reassembled and decoded. -/
theorem exchange_read_exact_witness :
    (dnsExchange sampleEnv tcpMutateQuery [sampleQuery] 0).result =
      match sampleEnv.unpack [9, 8] with
      | none => .error .unpackFailed
      | some respMsg =>
        match sampleEnv.parseResponse 7 respMsg with
        | .error e => .error (.codec e)
        | .ok resp => .ok resp :=
  (exchange_read_exact sampleEnv tcpMutateQuery [sampleQuery] 0 7 [1, 2, 3]
    rfl rfl rfl rfl (by decide) rfl).1 [9, 8] [5] 0 2 (by decide) (by decide)
    (by decide) (by decide)

/-- Closed witness for `half_close_before_first_read`. -/
theorem half_close_before_first_read_witness :
    ∃ pre post,
      (dnsExchange sampleEnv tcpMutateQuery [sampleQuery] 0).trace
        = pre ++ Ev.writeFrame :: Ev.closeStream :: post ∧
      ∀ e ∈ pre, isRead e = false :=
  half_close_before_first_read sampleEnv tcpMutateQuery [sampleQuery] 0
    (by decide)

/-- Closed witness for `exchange_validates_response`. -/
theorem exchange_validates_response_witness :
    (sampleEnv.unpack [9, 8] = none →
      (dnsExchange sampleEnv tcpMutateQuery [sampleQuery] 0).result
        = .error .unpackFailed) ∧
    (∀ respMsg e, sampleEnv.unpack [9, 8] = some respMsg →
      sampleEnv.parseResponse 7 respMsg = .error e →
      (dnsExchange sampleEnv tcpMutateQuery [sampleQuery] 0).result
        = .error (.codec e)) ∧
    (∀ resp,
      (dnsExchange sampleEnv tcpMutateQuery [sampleQuery] 0).result = .ok resp →
      ∃ respMsg, sampleEnv.unpack [9, 8] = some respMsg ∧
        sampleEnv.parseResponse 7 respMsg = .ok resp) :=
  exchange_validates_response sampleEnv tcpMutateQuery [sampleQuery] 0 7
    [1, 2, 3] [9, 8] [5] 0 2 rfl rfl rfl rfl (by decide) rfl (by decide)
    (by decide) (by decide)

/-- Closed witness for `exchange_ignores_maxsize`: the mutated query allows
1 byte, the response announces 2, and the exchange still succeeds. -/
theorem exchange_ignores_maxsize_witness :
    (dnsExchange sampleEnv sampleSmallMutate [sampleQuery] 0).result
      = .ok 49 :=
  exchange_ignores_maxsize sampleEnv sampleSmallMutate [sampleQuery] 0 7 42
    [1, 2, 3] [9, 8] [5] 0 2 49 rfl rfl rfl rfl (by decide) rfl (by decide)
    (by decide) (by decide) (by decide) rfl rfl
